import Mathlib

/-!
Verification development for the Juris reactive core (juris.js bundle):
the `StateManager` (path-addressed state tree, middleware, subscribers,
batching) and the async-detecting `StringRenderer`.

The JavaScript value universe of the state tree is embedded as `Value`:
null, booleans, numbers (integral values only; none of the checked code
depends on float-specific behaviour), strings, and objects.  An object
carries an `isArray` tag mirroring `Array.isArray` (a JS array is an
object whose enumerable own properties are its index keys); the exotic
non-enumerable `length` property of arrays and wrapper properties of
primitives are outside this universe.  `undefined` is represented by
absence of a key.
-/

namespace Juris

inductive Value where
  | vnull
  | vbool (b : Bool)
  | vnum (n : Int)
  | vstr (s : String)
  | vobj (isArray : Bool) (props : List (String × Value))
deriving Repr

mutual

/-- Structural (syntactic) equality test on `Value`, used to embed the
JS `===`-then-recurse shortcut of `deepEquals` and to decide equality. -/
def Value.beq : Value → Value → Bool
  | .vnull, .vnull => true
  | .vbool a, .vbool b => a == b
  | .vnum a, .vnum b => a == b
  | .vstr a, .vstr b => a == b
  | .vobj f ps, .vobj g qs => f == g && Value.beqProps ps qs
  | _, _ => false

def Value.beqProps : List (String × Value) → List (String × Value) → Bool
  | [], [] => true
  | (k, v) :: rest, (k', v') :: rest' =>
      k == k' && Value.beq v v' && Value.beqProps rest rest'
  | _, _ => false

end

mutual

theorem Value.beq_iff : ∀ a b : Value, Value.beq a b = true ↔ a = b
  | .vnull, b => by cases b <;> simp [Value.beq]
  | .vbool a, b => by cases b <;> simp [Value.beq]
  | .vnum a, b => by cases b <;> simp [Value.beq]
  | .vstr a, b => by cases b <;> simp [Value.beq]
  | .vobj f ps, b => by
      cases b with
      | vobj g qs =>
          simp only [Value.beq, Bool.and_eq_true, beq_iff_eq, Value.vobj.injEq]
          exact and_congr Iff.rfl (Value.beqProps_iff ps qs)
      | vnull => simp [Value.beq]
      | vbool _ => simp [Value.beq]
      | vnum _ => simp [Value.beq]
      | vstr _ => simp [Value.beq]

theorem Value.beqProps_iff : ∀ ps qs : List (String × Value),
    Value.beqProps ps qs = true ↔ ps = qs
  | [], [] => by simp [Value.beqProps]
  | [], _ :: _ => by simp [Value.beqProps]
  | _ :: _, [] => by simp [Value.beqProps]
  | (k, v) :: rest, (k', v') :: rest' => by
      simp only [Value.beqProps, Bool.and_eq_true, beq_iff_eq, List.cons.injEq,
        Prod.mk.injEq]
      exact and_congr (and_congr Iff.rfl (Value.beq_iff v v'))
        (Value.beqProps_iff rest rest')

end

instance : DecidableEq Value := fun a b =>
  decidable_of_iff (Value.beq a b = true) (Value.beq_iff a b)

/-- The whitespace class of `String.prototype.trim` (the ASCII part; the
paths under study carry no exotic Unicode spaces). -/
def isJsSpace (c : Char) : Bool :=
  c = ' ' || c = '\t' || c = '\n' || c = '\r' || c = '\x0b' || c = '\x0c'

/-- `path.trim()` at the character level. -/
def trimChars (cs : List Char) : List Char :=
  ((cs.dropWhile isJsSpace).reverse.dropWhile isJsSpace).reverse

/-- `path.includes('..')` at the character level. -/
def hasDoubleDot : List Char → Bool
  | '.' :: '.' :: _ => true
  | _ :: rest => hasDoubleDot rest
  | [] => false

/-- `isValidPath(path)`: a string path is valid when its trimmed form is
nonempty and it does not contain the two-character sequence `..`
(the parent-escape guard).  Embeds `utilities.isValidPath`. -/
def isValidPath (path : String) : Bool :=
  (trimChars path.data).length > 0 && !(hasDoubleDot path.data)

/-- `path.split('.')`: JS single-character split (an empty string yields
`[""]`, adjacent dots yield empty segments). -/
def splitDotAux : List Char → List Char → List String
  | [], acc => [String.mk acc.reverse]
  | '.' :: rest, acc => String.mk acc.reverse :: splitDotAux rest []
  | c :: rest, acc => splitDotAux rest (c :: acc)

/-- `getPathParts(path)`: split on `.` and drop empty segments
(`path.split('.').filter(Boolean)`). -/
def getPathParts (path : String) : List String :=
  (splitDotAux path.data []).filter (fun s => s ≠ "")

/-- First-match association lookup on an object's property list; models
JS property read `obj[key]` (absent key reads as `undefined`, here `none`). -/
def lookupProp : List (String × Value) → String → Option Value
  | [], _ => none
  | (k, v) :: rest, key => if k = key then some v else lookupProp rest key

/-- JS property write `obj[key] = v`: overwrite in place when the key
exists, append otherwise (JS objects keep the original key position). -/
def setProp : List (String × Value) → String → Value → List (String × Value)
  | [], key, v => [(key, v)]
  | (k, v') :: rest, key, v =>
      if k = key then (key, v) :: rest else (k, v') :: setProp rest key v

/-- Property read on an arbitrary value: only objects have (modelled)
properties; reads on primitives and `null` yield `undefined`/default in
the `getState` walk. -/
def Value.getKey : Value → String → Option Value
  | .vobj _ props, key => lookupProp props key
  | _, _ => none

/-- The read walk of `StateManager.getState` (lines 129-139): step through
the parts; stop with `none` (caller substitutes the default) as soon as the
current value is null/primitive-without-key or the key is absent. -/
def walkParts : Value → List String → Option Value
  | current, [] => some current
  | current, part :: rest =>
      match current.getKey part with
      | none => none
      | some v => walkParts v rest

/-- The write-through walk of `_setStateImmediate` (lines 186-197): walk all
parts but the last, replacing an absent/null/non-object intermediate with a
fresh `{}` (an existing object or array is kept and written into), then
assign the final value at the last part.  An empty part list reproduces the
JS behaviour of `current[parts[-1]]`: indexing with `undefined` writes the
string key `"undefined"`. -/
def setThrough (props : List (String × Value)) : List String → Value → List (String × Value)
  | [], v => setProp props "undefined" v
  | [last], v => setProp props last v
  | part :: rest1 :: rest, v =>
      let child := match lookupProp props part with
        | some (.vobj a ps) => (a, ps)
        | _ => (false, [])
      setProp props part (.vobj child.1 (setThrough child.2 (rest1 :: rest) v))

mutual

/-- `deepEquals(a, b)` (juris.js lines 36-56): reference/primitive equality
shortcut, null guards, `Array.isArray` agreement, key-count equality
(the key lists have the property-list lengths), then the per-key loop. -/
def deepEquals (a b : Value) : Bool :=
  if a = b then true               -- `a === b` (same reference or equal primitive)
  else
    match a, b with
    | .vnull, _ => false           -- `a == null`
    | _, .vnull => false           -- `b == null`
    | .vobj arrA pa, .vobj arrB pb =>
        if arrA ≠ arrB then false  -- `Array.isArray(a) !== Array.isArray(b)`
        else if pa.length ≠ pb.length then false
        else deepEqualsEntries pa pb
    | _, _ => false                -- primitives of equal/different typeof, not `===`

/-- The `for (let key of keysA)` loop of `deepEquals`: each key of `a` must
be a key of `b` with deep-equal values (`a[key]` is the entry's own value:
a JS object carries no duplicate key). -/
def deepEqualsEntries : List (String × Value) → List (String × Value) → Bool
  | [], _ => true
  | (k, va) :: rest, pb =>
      ((pb.map Prod.fst).contains k &&
        (match lookupProp pb k with
         | some vb => deepEquals va vb
         | none => false)) && deepEqualsEntries rest pb

end

/-!
## StateManager

Subscriber callbacks are closures with side effects in JS; they are
embedded as small scripts (`CbAct` lists): a callback may read state
(recorded in the active dependency-tracking set, as `getState` does) and
write state by re-entering `setState`.  Internal (reactive) callbacks live
in a table keyed by an identity `Nat` — the `Map`-of-`Set`s registries hold
these identities — and external subscriptions carry their flag and script
inline.  Console output that the claims observe (the circular-update and
invalid-path warnings) and every callback invocation are recorded in an
event trace.
-/

/-- One step a subscriber callback may perform. -/
inductive CbAct where
  | doGet (path : String)
  | doSet (path : String) (value : Value)
deriving Repr, DecidableEq

/-- An external subscription: `{ callback, hierarchical }` with the
callback's script and identity. -/
structure ExtSub where
  id : Nat
  hierarchical : Bool
  acts : List CbAct
deriving Repr, DecidableEq

/-- A queued Update Record: `{path, value, context, timestamp}`. -/
structure UpdateRecord where
  path : String
  value : Value
  context : Value
  timestamp : Nat
deriving Repr, DecidableEq

/-- Observable events of one `StateManager` run: logged warnings, middleware
errors, and subscriber-callback invocations (internal reactive callbacks and
external `subscribe` callbacks with their arguments). -/
inductive Event where
  | warnInvalidPath (path : String)
  | warnCircular (path : String)
  | warnQueueLarge
  | midError (path : String)
  | intCall (path : String) (cbId : Nat)
  | extCall (subId : Nat) (newValue oldValue : Value) (changedPath : String)
deriving Repr, DecidableEq

/-- The argument object handed to a middleware:
`{ path, oldValue, newValue, context, state }`. -/
structure MwArgs where
  path : String
  oldValue : Value
  newValue : Value
  context : Value
  state : Value

/-- A middleware is a function of the argument object; it may return a
replacement value (`some`), return `undefined` (`none`, keeping the current
value), or throw. -/
def Middleware := MwArgs → Except String (Option Value)

/-- The `StateManager` instance state (constructor fields, lines 77-94).
`currentTracking`/`currentlyUpdating` are nullable (`null` until first use);
`batchTimeout` records whether a flush timer is pending, `rescheduled`
counts the deferred re-flush `setTimeout` calls issued by the batch
processor, and `now` is the ambient clock read by `Date.now()`. -/
structure StateManager where
  state : List (String × Value)
  middleware : List Middleware
  subscribers : List (String × List Nat)
  cbTable : List (Nat × List CbAct)
  externalSubscribers : List (String × List ExtSub)
  currentTracking : Option (List String)
  isUpdating : Bool
  currentlyUpdating : Option (List String)
  updateQueue : List UpdateRecord
  batchTimeout : Bool
  batchUpdateInProgress : Bool
  maxBatchSize : Nat
  batchDelayMs : Nat
  batchingEnabled : Bool
  rescheduled : Nat
  now : Nat

/-- `new StateManager(initialState, middleware)`: the constructor defaults
(`maxBatchSize = 50`, `batchDelayMs = 0`, `batchingEnabled = true`). -/
def mkStateManager (initialState : List (String × Value)) (middleware : List Middleware) :
    StateManager where
  state := initialState
  middleware := middleware
  subscribers := []
  cbTable := []
  externalSubscribers := []
  currentTracking := none
  isUpdating := false
  currentlyUpdating := none
  updateQueue := []
  batchTimeout := false
  batchUpdateInProgress := false
  maxBatchSize := 50
  batchDelayMs := 0
  batchingEnabled := true
  rescheduled := 0
  now := 0

/-- JS `Set.add`: append if absent (sets preserve insertion order). -/
def setAdd (l : List String) (x : String) : List String :=
  if l.contains x then l else l ++ [x]

/-- Association lookup in a registry keyed by path. -/
def regFind {α : Type} : List (String × α) → String → Option α
  | [], _ => none
  | (k, v) :: rest, key => if k = key then some v else regFind rest key

/-- Overwrite-or-append in a registry keyed by path (JS `Map.set`). -/
def regSet {α : Type} : List (String × α) → String → α → List (String × α)
  | [], key, v => [(key, v)]
  | (k, v') :: rest, key, v =>
      if k = key then (key, v) :: rest else (k, v') :: regSet rest key v

/-- `getState(path, defaultValue)` (lines 119-140): invalid paths warn and
yield the default; a read inside a tracked execution records the path in the
current dependency set; then the part-by-part walk from the state root. -/
def getState (sm : StateManager) (path : String) (defaultValue : Value) :
    Value × StateManager :=
  if !isValidPath path then (defaultValue, sm)
  else
    let sm := match sm.currentTracking with
      | some tr => { sm with currentTracking := some (setAdd tr path) }
      | none => sm
    match walkParts (.vobj false sm.state) (getPathParts path) with
    | some v => (v, sm)
    | none => (defaultValue, sm)

/-- The middleware fold of `_setStateImmediate` (lines 164-180): each
middleware may replace the pending value; a returned `undefined` keeps it; a
throw is logged (recorded as a `midError` event) and ignored. -/
def runMiddleware (mws : List Middleware) (path : String) (oldValue : Value)
    (value context stateObj : Value) : Value × List Event :=
  match mws with
  | [] => (value, [])
  | mw :: rest =>
      match mw ⟨path, oldValue, value, context, stateObj⟩ with
      | .ok (some r) => runMiddleware rest path oldValue r context stateObj
      | .ok none => runMiddleware rest path oldValue value context stateObj
      | .error _ =>
          let (fv, evs) := runMiddleware rest path oldValue value context stateObj
          (fv, Event.midError path :: evs)

/-- `subscribe(path, callback, hierarchical)` (lines 298-316): add the
subscription object to the path's set. -/
def subscribe (sm : StateManager) (path : String) (sub : ExtSub) : StateManager :=
  match regFind sm.externalSubscribers path with
  | none => { sm with externalSubscribers := regSet sm.externalSubscribers path [sub] }
  | some subs =>
      { sm with externalSubscribers := regSet sm.externalSubscribers path (subs ++ [sub]) }

/-- The unsubscribe closure returned by `subscribe`: delete the subscription
from the path's set, dropping the set when it empties. -/
def unsubscribeExternal (sm : StateManager) (path : String) (subId : Nat) : StateManager :=
  match regFind sm.externalSubscribers path with
  | none => sm
  | some subs =>
      let subs := subs.filter (fun s => s.id ≠ subId)
      if subs.length = 0 then
        { sm with externalSubscribers :=
            sm.externalSubscribers.filter (fun kv => kv.1 ≠ path) }
      else { sm with externalSubscribers := regSet sm.externalSubscribers path subs }

/-- `subscribeInternal(path, callback)` (lines 322-337): add the callback
(identity) to the path's internal set. -/
def subscribeInternal (sm : StateManager) (path : String) (cbId : Nat) : StateManager :=
  match regFind sm.subscribers path with
  | none => { sm with subscribers := regSet sm.subscribers path [cbId] }
  | some ids =>
      if ids.contains cbId then sm
      else { sm with subscribers := regSet sm.subscribers path (ids ++ [cbId]) }

/-- Whether an internal registry already holds this callback at this path
(the `existingSubs && existingSubs.has(callback)` re-subscription test). -/
def hasInternalSub (sm : StateManager) (path : String) (cbId : Nat) : Bool :=
  match regFind sm.subscribers path with
  | none => false
  | some ids => ids.contains cbId

/-- `s.startsWith(pre)` at the character level (first argument: the
prefix). -/
def startsWithChars : List Char → List Char → Bool
  | [], _ => true
  | _, [] => false
  | p :: ps, c :: cs => p = c && startsWithChars ps cs

/-- JS `s.startsWith(pre)`. -/
def jsStartsWith (s pre : String) : Bool := startsWithChars pre.data s.data

/-- `parts.join('.')`. -/
def joinDot : List String → String
  | [] => ""
  | [s] => s
  | s :: rest => s ++ "." ++ joinDot rest

/-- The ancestor paths notified by `_notifySubscribers` (lines 342-346):
`parts.slice(0, i).join('.')` for `i` from `parts.length - 1` down to `1` —
the immediate parent first, the root-most ancestor last. -/
def ancestorPaths (parts : List String) : List String :=
  ((List.range parts.length).reverse.filter (fun i => i ≠ 0)).map
    (fun i => joinDot (parts.take i))

/-- The deduplicated union (insertion order, JS `new Set([...])`) of the
registered internal and external subscriber paths. -/
def allSubscriberPaths (sm : StateManager) : List String :=
  (sm.subscribers.map Prod.fst ++ sm.externalSubscribers.map Prod.fst).foldl setAdd []

/-!
The `setState` re-entrancy knot: a subscriber callback running inside a
notification pass may call `setState` again.  Each function below is the
direct transcription of its source namesake, abstracted over `setSt` — the
`this.setState` reference a callback closes over.  The knot is tied by
`setStateFuel`, structurally recursive on a fuel that bounds callback
re-entry depth (the code itself bounds it via the circular-update guard and
the `isUpdating` flag; exhausted fuel returns the store unchanged and is
unreachable at adequate fuel).
-/

/-- The type of `this.setState` as seen from a callback. -/
def SetStateFn :=
  StateManager → String → Value → Value → StateManager × List Event

/-- Run a callback script: `getState` reads feed dependency tracking, and
`setState` writes re-enter the store. -/
def runActs (setSt : SetStateFn) : StateManager → List CbAct → StateManager × List Event
  | sm, [] => (sm, [])
  | sm, .doGet p :: rest =>
      let sm := (getState sm p .vnull).2
      runActs setSt sm rest
  | sm, .doSet p v :: rest =>
      let r := setSt sm p v (.vobj false [])
      let r' := runActs setSt r.1 rest
      (r'.1, r.2 ++ r'.2)

/-- One internal callback run inside `_triggerPathSubscribers`
(lines 398-418): save the active tracking set, install a fresh one, run the
callback, restore, then subscribe the callback to every newly read path it
is not yet registered at. -/
def runInternalCb (setSt : SetStateFn) (sm : StateManager) (cbId : Nat) :
    StateManager × List Event :=
  let oldTracking := sm.currentTracking
  let sm1 : StateManager := { sm with currentTracking := some [] }
  let acts := (regFindNat sm1.cbTable cbId).getD []
  let r := runActs setSt sm1 acts
  let newTracking := r.1.currentTracking.getD []
  let sm2 : StateManager := { r.1 with currentTracking := oldTracking }
  let sm3 := newTracking.foldl
    (fun sm newPath =>
      if hasInternalSub sm newPath cbId then sm else subscribeInternal sm newPath cbId)
    sm2
  (sm3, r.2)
where
  regFindNat : List (Nat × List CbAct) → Nat → Option (List CbAct)
  | [], _ => none
  | (k, v) :: rest, key => if k = key then some v else regFindNat rest key

/-- The copy-then-iterate loop body of `_triggerPathSubscribers`. -/
def runInternalCbs (setSt : SetStateFn) (path : String) :
    StateManager → List Nat → StateManager × List Event
  | sm, [] => (sm, [])
  | sm, cbId :: rest =>
      let r := runInternalCb setSt sm cbId
      let r' := runInternalCbs setSt path r.1 rest
      (r'.1, (Event.intCall path cbId :: r.2) ++ r'.2)

/-- `_triggerPathSubscribers(path)` (lines 393-420): snapshot the internal
set registered at `path` and run each callback. -/
def triggerPathSubscribers (setSt : SetStateFn) (sm : StateManager) (path : String) :
    StateManager × List Event :=
  match regFind sm.subscribers path with
  | none => (sm, [])
  | some ids => runInternalCbs setSt path sm ids

/-- Trigger a list of paths in order (the ancestor and descendant loops of
`_notifySubscribers`). -/
def triggerEach (setSt : SetStateFn) :
    StateManager → List String → StateManager × List Event
  | sm, [] => (sm, [])
  | sm, p :: rest =>
      let r := triggerPathSubscribers setSt sm p
      let r' := triggerEach setSt r.1 rest
      (r'.1, r.2 ++ r'.2)

/-- `_notifySubscribers(path, ...)` (lines 339-359): trigger the exact path,
then every strict-prefix ancestor (deepest first), then — over the union of
registered subscriber paths as it stands after those triggers — every path
strictly under `path ++ "."`. -/
def notifySubscribers (setSt : SetStateFn) (sm : StateManager) (path : String) :
    StateManager × List Event :=
  let r1 := triggerPathSubscribers setSt sm path
  let r2 := triggerEach setSt r1.1 (ancestorPaths (getPathParts path))
  let pre := if path = "" then "" else path ++ "."
  let descendants := (allSubscriberPaths r2.1).filter
    (fun sp => jsStartsWith sp pre && sp ≠ path)
  let r3 := triggerEach setSt r2.1 descendants
  (r3.1, r1.2 ++ r2.2 ++ r3.2)

/-- Whether one external subscription fires for a change at `changedPath`
(lines 367-380): hierarchical subscriptions match the subscribed path and
everything strictly below it; exact subscriptions match only equality. -/
def shouldNotifyExt (subscribedPath changedPath : String) (hierarchical : Bool) : Bool :=
  if hierarchical then
    changedPath = subscribedPath || jsStartsWith changedPath (subscribedPath ++ ".")
  else changedPath = subscribedPath

/-- The inner `subscriptions.forEach` of `_notifyExternalSubscribers`. -/
def notifyExtSubs (setSt : SetStateFn) (subscribedPath changedPath : String)
    (newValue oldValue : Value) :
    StateManager → List ExtSub → StateManager × List Event
  | sm, [] => (sm, [])
  | sm, sub :: rest =>
      if shouldNotifyExt subscribedPath changedPath sub.hierarchical then
        let r := runActs setSt sm sub.acts
        let r' := notifyExtSubs setSt subscribedPath changedPath newValue oldValue r.1 rest
        (r'.1, (Event.extCall sub.id newValue oldValue changedPath :: r.2) ++ r'.2)
      else notifyExtSubs setSt subscribedPath changedPath newValue oldValue sm rest

/-- `_notifyExternalSubscribers(changedPath, newValue, oldValue)`
(lines 361-391): walk every registered external entry in registration
order and fire the matching subscriptions. -/
def notifyExternalSubscribers (setSt : SetStateFn) (sm : StateManager)
    (changedPath : String) (newValue oldValue : Value) : StateManager × List Event :=
  go sm sm.externalSubscribers
where
  go : StateManager → List (String × List ExtSub) → StateManager × List Event
  | sm, [] => (sm, [])
  | sm, (subscribedPath, subs) :: rest =>
      let r := notifyExtSubs setSt subscribedPath changedPath newValue oldValue sm subs
      let r' := go r.1 rest
      (r'.1, r.2 ++ r'.2)

/-- `_setStateImmediate(path, value, context)` (lines 161-213): read the old
value, fold the middleware, skip the write when the final value is
deep-equal to the old one, otherwise write through the path and — unless a
notification pass is already running — notify internal then external
subscribers under the circular-update guard. -/
def setStateImmediate (setSt : SetStateFn) (sm : StateManager) (path : String)
    (value context : Value) : StateManager × List Event :=
  let oldValue := (getState sm path .vnull).1
  let sm0 := (getState sm path .vnull).2
  let mw := runMiddleware sm0.middleware path oldValue value context (.vobj false sm0.state)
  let finalValue := mw.1
  let mwEvents := mw.2
  if deepEquals oldValue finalValue then (sm0, mwEvents)
  else
    let smW : StateManager := { sm0 with state := setThrough sm0.state (getPathParts path) finalValue }
    if !smW.isUpdating then
      let smU : StateManager :=
        { smW with isUpdating := true,
                   currentlyUpdating := some (setAdd (smW.currentlyUpdating.getD []) path) }
      let r1 := notifySubscribers setSt smU path
      let r2 := notifyExternalSubscribers setSt r1.1 path finalValue oldValue
      let smF : StateManager :=
        { r2.1 with
          currentlyUpdating := some ((r2.1.currentlyUpdating.getD []).filter (fun p => p ≠ path)),
          isUpdating := false }
      (smF, mwEvents ++ r1.2 ++ r2.2)
    else (smW, mwEvents)

/-- The coalescing `pathGroups` map of `_processBatchedUpdates`
(lines 233-237): `Map.set` keeps the first-insertion position of a path and
the latest update record for it. -/
def groupLatest (batch : List UpdateRecord) : List UpdateRecord :=
  batch.foldl
    (fun acc u =>
      if acc.any (fun r => r.path = u.path) then
        acc.map (fun r => if r.path = u.path then u else r)
      else acc ++ [u])
    []

/-- The `pathGroups.forEach` apply loop of `_processBatchedUpdates`. -/
def processGroups (setSt : SetStateFn) :
    StateManager → List UpdateRecord → StateManager × List Event
  | sm, [] => (sm, [])
  | sm, u :: rest =>
      let r := setStateImmediate setSt sm u.path u.value u.context
      let r' := processGroups setSt r.1 rest
      (r'.1, r.2 ++ r'.2)

/-- `_processBatchedUpdates()` (lines 216-258): take up to `maxBatchSize`
records off the queue, coalesce by path (last write wins), apply each unique
update through the unbatched `_setStateImmediate`, and re-schedule a flush
if records remain. -/
def processBatchedUpdates (setSt : SetStateFn) (sm : StateManager) :
    StateManager × List Event :=
  if sm.batchUpdateInProgress || sm.updateQueue.length = 0 then (sm, [])
  else
    let sm : StateManager := { sm with batchUpdateInProgress := true }
    let sm : StateManager := if sm.batchTimeout then { sm with batchTimeout := false } else sm
    let batchSize := min sm.maxBatchSize sm.updateQueue.length
    let currentBatch := sm.updateQueue.take batchSize
    let sm : StateManager := { sm with updateQueue := sm.updateQueue.drop batchSize }
    let r := processGroups setSt sm (groupLatest currentBatch)
    let sm2 : StateManager := { r.1 with batchUpdateInProgress := false }
    let sm3 : StateManager :=
      if sm2.updateQueue.length > 0 then { sm2 with rescheduled := sm2.rescheduled + 1 }
      else sm2
    (sm3, r.2)

/-- `_queueUpdate(path, value, context)` (lines 282-296): push an Update
Record; an overlong queue (`> maxBatchSize * 2`) is flushed immediately with
a warning; otherwise a flush timer is armed if none is pending. -/
def queueUpdate (setSt : SetStateFn) (sm : StateManager) (path : String)
    (value context : Value) : StateManager × List Event :=
  let sm := { sm with updateQueue := sm.updateQueue ++ [⟨path, value, context, sm.now⟩] }
  if sm.updateQueue.length > sm.maxBatchSize * 2 then
    let r := processBatchedUpdates setSt sm
    (r.1, Event.warnQueueLarge :: r.2)
  else if !sm.batchTimeout then ({ sm with batchTimeout := true }, [])
  else (sm, [])

/-- `setState(path, value, context)` (lines 142-159): validity warning,
circular-update guard (`_hasCircularUpdate`, lines 422-433, lazily creating
the reentrancy set), batching route, else the immediate path. -/
def setStateGo (setSt : SetStateFn) (sm : StateManager) (path : String)
    (value context : Value) : StateManager × List Event :=
  if !isValidPath path then (sm, [.warnInvalidPath path])
  else
    let sm := match sm.currentlyUpdating with
      | none => { sm with currentlyUpdating := some [] }
      | some _ => sm
    if (sm.currentlyUpdating.getD []).contains path then (sm, [.warnCircular path])
    else if sm.batchingEnabled && sm.batchDelayMs > 0 then queueUpdate setSt sm path value context
    else setStateImmediate setSt sm path value context

/-- `this.setState` with a structural re-entry bound: each nested call a
subscriber callback makes runs at one less fuel. -/
def setStateFuel : Nat → SetStateFn
  | 0 => fun sm _ _ _ => (sm, [])
  | fuel + 1 => fun sm path value context =>
      setStateGo (setStateFuel fuel) sm path value context

/-- The batch-flush timer firing: `_processBatchedUpdates` with callbacks
re-entering `setState` at the given fuel. -/
def processBatchedFuel (fuel : Nat) (sm : StateManager) : StateManager × List Event :=
  processBatchedUpdates (setStateFuel fuel) sm

/-- A script that never writes state (a spy: reads at most). -/
def actsReadOnly (acts : List CbAct) : Bool :=
  acts.all fun a => match a with | .doGet _ => true | .doSet _ _ => false

/-- Every registered callback script (internal table and external
subscriptions) is read-only: subscribers observe, they do not write back. -/
def ReadOnlyScripts (sm : StateManager) : Prop :=
  (∀ e ∈ sm.cbTable, actsReadOnly e.2 = true) ∧
  (∀ e ∈ sm.externalSubscribers, ∀ s ∈ e.2, actsReadOnly s.acts = true)

/-- Every registered callback script is empty (pure spies). -/
def EmptyScripts (sm : StateManager) : Prop :=
  (∀ e ∈ sm.cbTable, e.2 = ([] : List CbAct)) ∧
  (∀ e ∈ sm.externalSubscribers, ∀ s ∈ e.2, s.acts = ([] : List CbAct))

/-- The fields a notification pass with read-only callbacks cannot change:
the state tree, the callback table, and the external registry. -/
def corePreserved (a b : StateManager) : Prop :=
  a.state = b.state ∧ a.cbTable = b.cbTable ∧
    a.externalSubscribers = b.externalSubscribers

/-- Number of `extCall` events for one subscriber identity in a trace. -/
def extCallsOf (evs : List Event) (subId : Nat) : Nat :=
  (evs.filter fun e => match e with
    | .extCall i _ _ _ => i = subId
    | _ => false).length

/-- Whether an event is a subscriber notification (internal or external). -/
def isNotifyEvent : Event → Bool
  | .intCall _ _ => true
  | .extCall _ _ _ _ => true
  | _ => false

end Juris

namespace Juris

/-! ### Helper lemmas -/

theorem lookupProp_setProp_self (props : List (String × Value)) (k : String) (v : Value) :
    lookupProp (setProp props k v) k = some v := by
  induction props with
  | nil => simp [setProp, lookupProp]
  | cons hd tl ih =>
      by_cases h : hd.1 = k
      · simp [setProp, h, lookupProp]
      · rcases hd with ⟨k', v'⟩
        simp only at h
        simp [setProp, h, lookupProp, ih]

theorem walkParts_setThrough (parts : List String) (props : List (String × Value))
    (v : Value) (h : parts ≠ []) :
    walkParts (.vobj false (setThrough props parts v)) parts = some v := by
  induction parts generalizing props with
  | nil => exact absurd rfl h
  | cons p rest ih =>
      cases rest with
      | nil =>
          simp [setThrough, walkParts, Value.getKey, lookupProp_setProp_self]
      | cons q rest' =>
          simp only [setThrough, walkParts, Value.getKey, lookupProp_setProp_self]
          exact ih _ (by simp)

theorem getState_core (sm : StateManager) (p : String) (d : Value) :
    corePreserved (getState sm p d).2 sm := by
  unfold getState corePreserved
  by_cases hv : isValidPath p
  · simp only [hv]
    cases htr : sm.currentTracking <;>
      cases hw : walkParts (.vobj false sm.state) (getPathParts p) <;> simp [htr, hw]
  · simp [hv]

theorem getState_state (sm : StateManager) (p : String) (d : Value) :
    (getState sm p d).2.state = sm.state :=
  (getState_core sm p d).1

theorem getState_val (sm : StateManager) (p : String) (d : Value) :
    (getState sm p d).1 = if isValidPath p
      then (walkParts (.vobj false sm.state) (getPathParts p)).getD d
      else d := by
  unfold getState
  by_cases hv : isValidPath p
  · simp only [hv, if_true, Bool.not_true, Bool.false_eq_true, if_false]
    cases htr : sm.currentTracking <;>
      cases hw : walkParts (Value.vobj false sm.state) (getPathParts p) <;>
        simp [htr, hw]
  · simp [hv]

theorem getState_val_of_core (a b : StateManager) (p : String) (d : Value)
    (h : corePreserved a b) : (getState a p d).1 = (getState b p d).1 := by
  rw [getState_val, getState_val, h.1]

theorem corePreserved_refl (a : StateManager) : corePreserved a a := ⟨rfl, rfl, rfl⟩

theorem corePreserved_trans {a b c : StateManager}
    (h1 : corePreserved a b) (h2 : corePreserved b c) : corePreserved a c :=
  ⟨h1.1.trans h2.1, h1.2.1.trans h2.2.1, h1.2.2.trans h2.2.2⟩

theorem runActs_core (setSt : SetStateFn) (sm : StateManager) (acts : List CbAct)
    (h : actsReadOnly acts = true) :
    corePreserved (runActs setSt sm acts).1 sm ∧ (runActs setSt sm acts).2 = [] := by
  induction acts generalizing sm with
  | nil => exact ⟨corePreserved_refl sm, rfl⟩
  | cons a rest ih =>
      cases a with
      | doGet p =>
          have hrest : actsReadOnly rest = true := by
            simp [actsReadOnly] at h ⊢
            exact h
          have := ih ((getState sm p .vnull).2) hrest
          exact ⟨corePreserved_trans this.1 (getState_core sm p .vnull), this.2⟩
      | doSet p v => simp [actsReadOnly] at h

theorem subscribeInternal_core (sm : StateManager) (p : String) (cbId : Nat) :
    corePreserved (subscribeInternal sm p cbId) sm := by
  unfold subscribeInternal
  refine ⟨?_, ?_, ?_⟩ <;> (split <;> (try split) <;> rfl)

theorem regFindNat_readOnly (tbl : List (Nat × List CbAct)) (cbId : Nat)
    (h : ∀ e ∈ tbl, actsReadOnly e.2 = true) :
    actsReadOnly ((runInternalCb.regFindNat tbl cbId).getD []) = true := by
  induction tbl with
  | nil => rfl
  | cons e tl ih =>
      by_cases he : e.1 = cbId
      · simp only [runInternalCb.regFindNat, if_pos he, Option.getD_some]
        exact h e (by simp)
      · simp only [runInternalCb.regFindNat, if_neg he]
        exact ih fun e' he' => h e' (by simp [he'])

theorem resubscribeFold_core (cbId : Nat) (tr : List String) (s : StateManager) :
    corePreserved (tr.foldl
      (fun sm newPath =>
        if hasInternalSub sm newPath cbId then sm else subscribeInternal sm newPath cbId)
      s) s := by
  induction tr generalizing s with
  | nil => exact corePreserved_refl s
  | cons hd tl ih =>
      by_cases hh : hasInternalSub s hd cbId
      · simpa [hh] using ih s
      · simp only [List.foldl, hh, Bool.false_eq_true, if_false]
        exact corePreserved_trans (ih _) (subscribeInternal_core s hd cbId)

theorem runInternalCb_core (setSt : SetStateFn) (sm : StateManager) (cbId : Nat)
    (h : ∀ e ∈ sm.cbTable, actsReadOnly e.2 = true) :
    corePreserved (runInternalCb setSt sm cbId).1 sm ∧
      (runInternalCb setSt sm cbId).2 = [] := by
  unfold runInternalCb
  have hacts : actsReadOnly
      ((runInternalCb.regFindNat
        ({ sm with currentTracking := some [] } : StateManager).cbTable cbId).getD []) = true :=
    regFindNat_readOnly _ cbId h
  have hra := runActs_core setSt { sm with currentTracking := some [] } _ hacts
  constructor
  · refine corePreserved_trans (resubscribeFold_core cbId _ _) ?_
    exact ⟨hra.1.1, hra.1.2.1, hra.1.2.2⟩
  · exact hra.2

theorem runInternalCbs_core (setSt : SetStateFn) (path : String) (sm : StateManager)
    (ids : List Nat) (h : ∀ e ∈ sm.cbTable, actsReadOnly e.2 = true) :
    corePreserved (runInternalCbs setSt path sm ids).1 sm ∧
      (runInternalCbs setSt path sm ids).2 = ids.map (Event.intCall path) := by
  induction ids generalizing sm with
  | nil => exact ⟨corePreserved_refl sm, rfl⟩
  | cons cbId rest ih =>
      have h1 := runInternalCb_core setSt sm cbId h
      have h' : ∀ e ∈ (runInternalCb setSt sm cbId).1.cbTable, actsReadOnly e.2 = true := by
        rw [h1.1.2.1]; exact h
      have h2 := ih (runInternalCb setSt sm cbId).1 h'
      refine ⟨corePreserved_trans h2.1 h1.1, ?_⟩
      simp [runInternalCbs, h1.2, h2.2]

theorem triggerPathSubscribers_core (setSt : SetStateFn) (sm : StateManager) (p : String)
    (h : ∀ e ∈ sm.cbTable, actsReadOnly e.2 = true) :
    corePreserved (triggerPathSubscribers setSt sm p).1 sm ∧
      (triggerPathSubscribers setSt sm p).2 =
        ((regFind sm.subscribers p).getD []).map (Event.intCall p) := by
  unfold triggerPathSubscribers
  cases hr : regFind sm.subscribers p with
  | none => exact ⟨corePreserved_refl sm, rfl⟩
  | some ids => simpa using runInternalCbs_core setSt p sm ids h

theorem triggerEach_core (setSt : SetStateFn) (sm : StateManager) (paths : List String)
    (h : ∀ e ∈ sm.cbTable, actsReadOnly e.2 = true) :
    corePreserved (triggerEach setSt sm paths).1 sm := by
  induction paths generalizing sm with
  | nil => exact corePreserved_refl sm
  | cons p rest ih =>
      have h1 := (triggerPathSubscribers_core setSt sm p h).1
      have h' : ∀ e ∈ (triggerPathSubscribers setSt sm p).1.cbTable,
          actsReadOnly e.2 = true := by rw [h1.2.1]; exact h
      exact corePreserved_trans (ih _ h') h1

theorem notifySubscribers_core (setSt : SetStateFn) (sm : StateManager) (p : String)
    (h : ∀ e ∈ sm.cbTable, actsReadOnly e.2 = true) :
    corePreserved (notifySubscribers setSt sm p).1 sm := by
  unfold notifySubscribers
  have h1 := triggerPathSubscribers_core setSt sm p h
  have hA : ∀ e ∈ (triggerPathSubscribers setSt sm p).1.cbTable,
      actsReadOnly e.2 = true := by rw [h1.1.2.1]; exact h
  have h2 := triggerEach_core setSt _ (ancestorPaths (getPathParts p)) hA
  have hB : ∀ e ∈ (triggerEach setSt (triggerPathSubscribers setSt sm p).1
      (ancestorPaths (getPathParts p))).1.cbTable, actsReadOnly e.2 = true := by
    rw [h2.2.1, h1.1.2.1]; exact h
  have h3 := triggerEach_core setSt _
    ((allSubscriberPaths (triggerEach setSt (triggerPathSubscribers setSt sm p).1
        (ancestorPaths (getPathParts p))).1).filter
      (fun sp => jsStartsWith sp (if p = "" then "" else p ++ ".") && sp ≠ p)) hB
  exact corePreserved_trans (corePreserved_trans h3 h2) h1.1

theorem notifyExtSubs_core (setSt : SetStateFn) (sp cp : String) (nv ov : Value)
    (sm : StateManager) (subs : List ExtSub)
    (h : ∀ s ∈ subs, actsReadOnly s.acts = true) :
    corePreserved (notifyExtSubs setSt sp cp nv ov sm subs).1 sm := by
  induction subs generalizing sm with
  | nil => exact corePreserved_refl sm
  | cons s rest ih =>
      by_cases hn : shouldNotifyExt sp cp s.hierarchical
      · have h1 := runActs_core setSt sm s.acts (h s (by simp))
        have h2 := ih (runActs setSt sm s.acts).1 (fun s' hs' => h s' (by simp [hs']))
        simp only [notifyExtSubs, hn, if_true]
        exact corePreserved_trans h2 h1.1
      · simp only [notifyExtSubs, hn, if_false]
        exact ih sm (fun s' hs' => h s' (by simp [hs']))

theorem notifyExternalSubscribersGo_core (setSt : SetStateFn) (cp : String) (nv ov : Value)
    (sm : StateManager) (entries : List (String × List ExtSub))
    (h : ∀ e ∈ entries, ∀ s ∈ e.2, actsReadOnly s.acts = true) :
    corePreserved (notifyExternalSubscribers.go setSt cp nv ov sm entries).1 sm := by
  induction entries generalizing sm with
  | nil => exact corePreserved_refl sm
  | cons e rest ih =>
      have h1 := notifyExtSubs_core setSt e.1 cp nv ov sm e.2 (h e (by simp))
      have h2 := ih (notifyExtSubs setSt e.1 cp nv ov sm e.2).1
        (fun e' he' s hs => h e' (by simp [he']) s hs)
      rcases e with ⟨sp, subs⟩
      simp only [notifyExternalSubscribers.go]
      exact corePreserved_trans h2 h1

theorem notifyExternalSubscribers_core (setSt : SetStateFn) (sm : StateManager)
    (cp : String) (nv ov : Value)
    (h : ∀ e ∈ sm.externalSubscribers, ∀ s ∈ e.2, actsReadOnly s.acts = true) :
    corePreserved (notifyExternalSubscribers setSt sm cp nv ov).1 sm :=
  notifyExternalSubscribersGo_core setSt cp nv ov sm sm.externalSubscribers h

/-- With no middleware the pending value is returned untouched. -/
theorem runMiddleware_nil (path : String) (ov v c st : Value) :
    runMiddleware [] path ov v c st = (v, []) := rfl

/-- `setStateImmediate` on a quiescent store with no middleware and
read-only subscribers: when the new value is not deep-equal, the state tree
after the call is exactly the write-through of the old tree. -/
theorem getState_proj (sm : StateManager) (p : String) (d : Value) :
    (getState sm p d).2.middleware = sm.middleware ∧
    (getState sm p d).2.subscribers = sm.subscribers ∧
    (getState sm p d).2.isUpdating = sm.isUpdating ∧
    (getState sm p d).2.currentlyUpdating = sm.currentlyUpdating ∧
    (getState sm p d).2.batchDelayMs = sm.batchDelayMs ∧
    (getState sm p d).2.batchingEnabled = sm.batchingEnabled := by
  unfold getState
  by_cases hv : isValidPath p
  · simp only [hv, Bool.not_true, Bool.false_eq_true, if_false]
    cases htr : sm.currentTracking <;>
      cases hw : walkParts (Value.vobj false sm.state) (getPathParts p) <;>
        simp [htr, hw]
  · simp [hv]

theorem getState_mw (sm : StateManager) (p : String) (d : Value) :
    (getState sm p d).2.middleware = sm.middleware := (getState_proj sm p d).1

theorem getState_isUpdating (sm : StateManager) (p : String) (d : Value) :
    (getState sm p d).2.isUpdating = sm.isUpdating := (getState_proj sm p d).2.2.1

theorem getState_cu (sm : StateManager) (p : String) (d : Value) :
    (getState sm p d).2.currentlyUpdating = sm.currentlyUpdating :=
  (getState_proj sm p d).2.2.2.1

theorem getState_cbTable (sm : StateManager) (p : String) (d : Value) :
    (getState sm p d).2.cbTable = sm.cbTable := (getState_core sm p d).2.1

theorem getState_ext (sm : StateManager) (p : String) (d : Value) :
    (getState sm p d).2.externalSubscribers = sm.externalSubscribers :=
  (getState_core sm p d).2.2

theorem getState_val_congr (a b : StateManager) (p : String) (d : Value)
    (hp : a.state = b.state) : (getState a p d).1 = (getState b p d).1 := by
  rw [getState_val, getState_val, hp]

theorem getState_val_cuUpdate (sm : StateManager) (cu : Option (List String))
    (p : String) (d : Value) :
    (getState { sm with currentlyUpdating := cu } p d).1 = (getState sm p d).1 :=
  getState_val_congr _ sm p d rfl

theorem notifyBoth_state (setSt : SetStateFn) (smU : StateManager) (p : String)
    (nv ov : Value)
    (hcb : ∀ e ∈ smU.cbTable, actsReadOnly e.2 = true)
    (hext : ∀ e ∈ smU.externalSubscribers, ∀ s ∈ e.2, actsReadOnly s.acts = true) :
    (notifyExternalSubscribers setSt (notifySubscribers setSt smU p).1 p nv ov).1.state =
      smU.state := by
  have h1 := notifySubscribers_core setSt smU p hcb
  have h2 := notifyExternalSubscribers_core setSt (notifySubscribers setSt smU p).1 p nv ov
    (by rw [h1.2.2]; exact hext)
  exact h2.1.trans h1.1

set_option maxHeartbeats 1000000 in
theorem setStateImmediate_state (setSt : SetStateFn) (sm : StateManager)
    (p : String) (v c : Value)
    (hmw : sm.middleware = [])
    (hro : ReadOnlyScripts sm)
    (hne : deepEquals (getState sm p .vnull).1 v = false) :
    (setStateImmediate setSt sm p v c).1.state =
      setThrough sm.state (getPathParts p) v := by
  unfold setStateImmediate
  have hOld := hne
  have hMw : (getState sm p Value.vnull).2.middleware = [] := by
    rw [getState_mw]; exact hmw
  have hSt := getState_state sm p Value.vnull
  have hUpd := getState_isUpdating sm p Value.vnull
  have hCb := getState_cbTable sm p Value.vnull
  have hExt := getState_ext sm p Value.vnull
  generalize hg : getState sm p Value.vnull = gs at hOld hMw hSt hUpd hCb hExt ⊢
  obtain ⟨old, sm0⟩ := gs
  simp only at hOld hMw hSt hUpd hCb hExt
  dsimp only
  rw [hMw]
  simp only [runMiddleware_nil, hOld, Bool.false_eq_true, if_false]
  by_cases hu : sm.isUpdating
  · simp [hUpd, hu, hSt]
  · simp only [hUpd, hu, Bool.not_false, if_true]
    refine Eq.trans (notifyBoth_state setSt _ p v old ?_ ?_) ?_
    · simpa [hCb] using hro.1
    · simpa [hExt] using hro.2
    · simp [hSt]

/-- `setState` on a valid, non-batched, non-circular path with no middleware
and read-only subscribers, when the new value is not deep-equal to the old:
the resulting state tree is the write-through. -/
theorem setStateFuel_state (fuel : Nat) (sm : StateManager) (p : String) (v c : Value)
    (hvalid : isValidPath p = true)
    (hcu : sm.currentlyUpdating.getD [] = [])
    (hdelay : sm.batchDelayMs = 0)
    (hmw : sm.middleware = [])
    (hro : ReadOnlyScripts sm)
    (hne : deepEquals (getState sm p .vnull).1 v = false) :
    (setStateFuel (fuel + 1) sm p v c).1.state =
      setThrough sm.state (getPathParts p) v := by
  unfold setStateFuel setStateGo
  simp only [hvalid, Bool.not_true, Bool.false_eq_true, if_false]
  cases hct : sm.currentlyUpdating with
  | none =>
      simp only [hct]
      rw [if_neg (by simp), if_neg (by simp [hdelay])]
      refine Eq.trans (setStateImmediate_state _ _ p v c hmw hro ?_) rfl
      rw [getState_val_cuUpdate]
      exact hne
  | some cu =>
      have hcuEmpty : cu = [] := by simpa [hct] using hcu
      subst hcuEmpty
      simp only [hct]
      rw [if_neg (by simp), if_neg (by simp [hdelay])]
      exact setStateImmediate_state _ _ p v c hmw hro hne

/-! ### Trace characterization under spy subscribers

With every registered callback script empty (pure spies), one notification
pass leaves the store untouched and its event trace is determined by the
registries alone; the functions below compute that trace shape. -/

/-- The internal-trigger events of `_triggerPathSubscribers` at one path. -/
def trigEventsOf (internal : List (String × List Nat)) (p : String) : List Event :=
  ((regFind internal p).getD []).map (Event.intCall p)

/-- Internal-trigger events over a path list, in order. -/
def trigEventsAll (internal : List (String × List Nat)) : List String → List Event
  | [] => []
  | p :: rest => trigEventsOf internal p ++ trigEventsAll internal rest

/-- The deduplicated union of registered subscriber paths, as data. -/
def allSubPathsOf (internal : List (String × List Nat))
    (external : List (String × List ExtSub)) : List String :=
  (internal.map Prod.fst ++ external.map Prod.fst).foldl setAdd []

/-- The whole internal notification order of `_notifySubscribers` for a
change at `p`: the exact path, then the strict-prefix ancestors (deepest
first), then the registered strict descendants. -/
def intTraceOf (internal : List (String × List Nat))
    (external : List (String × List ExtSub)) (p : String) : List Event :=
  trigEventsOf internal p ++
  trigEventsAll internal (ancestorPaths (getPathParts p)) ++
  trigEventsAll internal
    ((allSubPathsOf internal external).filter
      (fun sp => jsStartsWith sp (if p = "" then "" else p ++ ".") && sp ≠ p))

/-- The external calls fired out of one registry entry. -/
def extEventsOf (subscribedPath : String) (subs : List ExtSub)
    (changedPath : String) (nv ov : Value) : List Event :=
  (subs.filter (fun s => shouldNotifyExt subscribedPath changedPath s.hierarchical)).map
    (fun s => Event.extCall s.id nv ov changedPath)

/-- The external notification order of `_notifyExternalSubscribers`:
registration order of the registry, each entry filtered by its match rule. -/
def extTraceOf (entries : List (String × List ExtSub))
    (changedPath : String) (nv ov : Value) : List Event :=
  match entries with
  | [] => []
  | e :: rest =>
      extEventsOf e.1 e.2 changedPath nv ov ++ extTraceOf rest changedPath nv ov

theorem regFindNatD_empty (tbl : List (Nat × List CbAct)) (cbId : Nat)
    (h : ∀ e ∈ tbl, e.2 = ([] : List CbAct)) :
    (runInternalCb.regFindNat tbl cbId).getD [] = [] := by
  induction tbl with
  | nil => rfl
  | cons e tl ih =>
      by_cases he : e.1 = cbId
      · simp only [runInternalCb.regFindNat, if_pos he, Option.getD_some]
        exact h e (by simp)
      · simp only [runInternalCb.regFindNat, if_neg he]
        exact ih fun e' he' => h e' (by simp [he'])

theorem runInternalCb_empty (setSt : SetStateFn) (sm : StateManager) (cbId : Nat)
    (h : ∀ e ∈ sm.cbTable, e.2 = ([] : List CbAct)) :
    runInternalCb setSt sm cbId = (sm, []) := by
  unfold runInternalCb
  dsimp only
  rw [regFindNatD_empty sm.cbTable cbId h]
  rfl

theorem runInternalCbs_empty (setSt : SetStateFn) (path : String) (sm : StateManager)
    (ids : List Nat) (h : ∀ e ∈ sm.cbTable, e.2 = ([] : List CbAct)) :
    runInternalCbs setSt path sm ids = (sm, ids.map (Event.intCall path)) := by
  induction ids with
  | nil => rfl
  | cons cbId rest ih =>
      simp only [runInternalCbs, runInternalCb_empty setSt sm cbId h, ih]
      simp

theorem triggerPathSubscribers_empty (setSt : SetStateFn) (sm : StateManager) (p : String)
    (h : ∀ e ∈ sm.cbTable, e.2 = ([] : List CbAct)) :
    triggerPathSubscribers setSt sm p = (sm, trigEventsOf sm.subscribers p) := by
  unfold triggerPathSubscribers trigEventsOf
  cases hr : regFind sm.subscribers p with
  | none => rfl
  | some ids => simp [runInternalCbs_empty setSt p sm ids h]

theorem triggerEach_empty (setSt : SetStateFn) (sm : StateManager) (paths : List String)
    (h : ∀ e ∈ sm.cbTable, e.2 = ([] : List CbAct)) :
    triggerEach setSt sm paths = (sm, trigEventsAll sm.subscribers paths) := by
  induction paths with
  | nil => rfl
  | cons p rest ih =>
      simp only [triggerEach, triggerPathSubscribers_empty setSt sm p h, ih, trigEventsAll]

theorem notifySubscribers_empty (setSt : SetStateFn) (sm : StateManager) (p : String)
    (h : ∀ e ∈ sm.cbTable, e.2 = ([] : List CbAct)) :
    notifySubscribers setSt sm p =
      (sm, intTraceOf sm.subscribers sm.externalSubscribers p) := by
  unfold notifySubscribers intTraceOf allSubscriberPaths allSubPathsOf
  simp only [triggerPathSubscribers_empty setSt sm p h, triggerEach_empty setSt sm _ h]

theorem notifyExtSubs_empty (setSt : SetStateFn) (sp cp : String) (nv ov : Value)
    (sm : StateManager) (subs : List ExtSub)
    (h : ∀ s ∈ subs, s.acts = ([] : List CbAct)) :
    notifyExtSubs setSt sp cp nv ov sm subs = (sm, extEventsOf sp subs cp nv ov) := by
  induction subs with
  | nil => rfl
  | cons s rest ih =>
      have hs : s.acts = [] := h s (by simp)
      have hrest := ih (fun s' hs' => h s' (by simp [hs']))
      by_cases hn : shouldNotifyExt sp cp s.hierarchical
      · simp only [notifyExtSubs, hn, if_true, hs, extEventsOf, List.filter_cons,
          List.map_cons]
        simp only [extEventsOf] at hrest
        simp [runActs, hrest, hn]
      · simp only [notifyExtSubs, hn, Bool.false_eq_true, if_false, extEventsOf,
          List.filter_cons]
        simp only [extEventsOf] at hrest
        simp [hrest, hn]

theorem notifyExternalSubscribersGo_empty (setSt : SetStateFn) (cp : String)
    (nv ov : Value) (sm : StateManager) (entries : List (String × List ExtSub))
    (h : ∀ e ∈ entries, ∀ s ∈ e.2, s.acts = ([] : List CbAct)) :
    notifyExternalSubscribers.go setSt cp nv ov sm entries =
      (sm, extTraceOf entries cp nv ov) := by
  induction entries with
  | nil => rfl
  | cons e rest ih =>
      rcases e with ⟨sp, subs⟩
      simp only [notifyExternalSubscribers.go,
        notifyExtSubs_empty setSt sp cp nv ov sm subs (h (sp, subs) (by simp)),
        ih (fun e' he' s hs => h e' (by simp [he']) s hs), extTraceOf]

theorem notifyExternalSubscribers_empty (setSt : SetStateFn) (sm : StateManager)
    (cp : String) (nv ov : Value)
    (h : ∀ e ∈ sm.externalSubscribers, ∀ s ∈ e.2, s.acts = ([] : List CbAct)) :
    notifyExternalSubscribers setSt sm cp nv ov =
      (sm, extTraceOf sm.externalSubscribers cp nv ov) :=
  notifyExternalSubscribersGo_empty setSt cp nv ov sm sm.externalSubscribers h

theorem getState_snd_none (sm : StateManager) (p : String) (d : Value)
    (hct : sm.currentTracking = none) : (getState sm p d).2 = sm := by
  unfold getState
  by_cases hv : isValidPath p
  · simp only [hv, Bool.not_true, Bool.false_eq_true, if_false, hct]
    cases hw : walkParts (Value.vobj false sm.state) (getPathParts p) <;> simp [hw]
  · simp [hv]

/-- `deepEquals(null, v)` holds only for `v = null`. -/
theorem deepEquals_vnull_left (v : Value) (h : v ≠ .vnull) :
    deepEquals .vnull v = false := by
  cases v with
  | vnull => exact absurd rfl h
  | vbool b => rfl
  | vnum n => rfl
  | vstr s => rfl
  | vobj a ps => rfl

/-- Middleware runs log only middleware errors: no subscriber is called
from the middleware fold. -/
theorem runMiddleware_events (mws : List Middleware) (path : String)
    (ov v c st : Value) :
    ((runMiddleware mws path ov v c st).2).all (fun e => !isNotifyEvent e) = true := by
  induction mws generalizing v with
  | nil => rfl
  | cons mw rest ih =>
      unfold runMiddleware
      cases mw ⟨path, ov, v, c, st⟩ with
      | ok r =>
          cases r with
          | some r' => exact ih r'
          | none => exact ih v
      | error e =>
          simp only [List.all_cons, Bool.and_eq_true]
          exact ⟨rfl, ih v⟩

set_option maxHeartbeats 2000000 in
/-- `_setStateImmediate` on a quiescent spy-subscribed store (described by
field equations against a reference store `sm`) that changes the value:
the exact resulting store and the exact synchronous event trace. -/
theorem setStateImmediate_run (setSt : SetStateFn) (sm sm' : StateManager)
    (p : String) (v c : Value)
    (hmw : sm.middleware = [])
    (hes : EmptyScripts sm)
    (hne : deepEquals (getState sm p .vnull).1 v = false)
    (hst : sm'.state = sm.state)
    (hmw' : sm'.middleware = sm.middleware)
    (hsub : sm'.subscribers = sm.subscribers)
    (hcb : sm'.cbTable = sm.cbTable)
    (hext : sm'.externalSubscribers = sm.externalSubscribers)
    (hct' : sm'.currentTracking = none)
    (hcu' : sm'.currentlyUpdating.getD [] = [])
    (hupd' : sm'.isUpdating = false) :
    setStateImmediate setSt sm' p v c =
      ({ sm' with state := setThrough sm.state (getPathParts p) v,
                  isUpdating := false, currentlyUpdating := some [] },
       intTraceOf sm.subscribers sm.externalSubscribers p ++
         extTraceOf sm.externalSubscribers p v (getState sm p .vnull).1) := by
  have hval' : (getState sm' p Value.vnull).1 = (getState sm p Value.vnull).1 :=
    getState_val_congr sm' sm p Value.vnull hst
  unfold setStateImmediate
  rw [getState_snd_none sm' p Value.vnull hct']
  dsimp only
  rw [hmw', hmw]
  simp only [runMiddleware_nil, hval', hne, Bool.false_eq_true, if_false,
    hupd', Bool.not_false, if_true]
  rw [notifySubscribers_empty setSt _ p (by simpa [hcb] using hes.1)]
  dsimp only
  rw [notifyExternalSubscribers_empty setSt _ p v (getState sm p Value.vnull).1
    (by simpa [hext] using hes.2)]
  dsimp only
  rw [hcu']
  simp only [setAdd, List.contains_nil, Bool.false_eq_true, if_false,
    List.nil_append, List.filter_cons, List.filter_nil]
  simp [hst, hsub, hext, hval']

set_option maxHeartbeats 2000000 in
/-- One `setState` on a quiescent spy-subscribed store that changes the
value: the exact resulting store and the exact synchronous event trace
(internal triggers in exact/ancestor/descendant order, then external
subscribers in registration order). -/
theorem setStateFuel_run (fuel : Nat) (sm : StateManager) (p : String) (v c : Value)
    (hvalid : isValidPath p = true)
    (hct : sm.currentTracking = none)
    (hcu : sm.currentlyUpdating.getD [] = [])
    (hdelay : sm.batchDelayMs = 0)
    (hmw : sm.middleware = [])
    (hupd : sm.isUpdating = false)
    (hes : EmptyScripts sm)
    (hne : deepEquals (getState sm p .vnull).1 v = false) :
    setStateFuel (fuel + 1) sm p v c =
      ({ sm with state := setThrough sm.state (getPathParts p) v,
                 isUpdating := false, currentlyUpdating := some [] },
       intTraceOf sm.subscribers sm.externalSubscribers p ++
         extTraceOf sm.externalSubscribers p v (getState sm p .vnull).1) := by
  unfold setStateFuel setStateGo
  simp only [hvalid, Bool.not_true, Bool.false_eq_true, if_false]
  cases hct0 : sm.currentlyUpdating with
  | none =>
      rw [if_neg (by simp), if_neg (by simp [hdelay])]
      exact (setStateImmediate_run (setStateFuel fuel) sm
        { sm with currentlyUpdating := some [] } p v c hmw hes hne
        rfl rfl rfl rfl rfl hct rfl hupd).trans rfl
  | some cu =>
      have hcuEmpty : cu = [] := by simpa [hct0] using hcu
      subst hcuEmpty
      rw [if_neg (by simp [hcu]), if_neg (by simp [hdelay])]
      refine (setStateImmediate_run (setStateFuel fuel) sm sm p v c hmw hes hne
        rfl rfl rfl rfl rfl hct (by simp [hct0]) hupd).trans ?_
      rw [show (some [] : Option (List String)) = sm.currentlyUpdating from hct0.symm]

set_option maxHeartbeats 2000000 in
/-- One `setState` whose (post-middleware) value is deep-equal to the old
one: the write is skipped — the state tree is untouched and the trace is
empty. -/
theorem setStateFuel_skipLite (fuel : Nat) (sm : StateManager) (p : String) (v c : Value)
    (hvalid : isValidPath p = true)
    (hcu : sm.currentlyUpdating.getD [] = [])
    (hdelay : sm.batchDelayMs = 0)
    (hmw : sm.middleware = [])
    (heq : deepEquals (getState sm p .vnull).1 v = true) :
    (setStateFuel (fuel + 1) sm p v c).1.state = sm.state ∧
      (setStateFuel (fuel + 1) sm p v c).2 = [] := by
  have himm : ∀ sm' : StateManager, sm'.state = sm.state →
      sm'.middleware = sm.middleware →
      ∀ setSt, setStateImmediate setSt sm' p v c = ((getState sm' p Value.vnull).2, []) := by
    intro sm' hst hmw' setSt
    have hval' : (getState sm' p Value.vnull).1 = (getState sm p Value.vnull).1 :=
      getState_val_congr sm' sm p Value.vnull hst
    unfold setStateImmediate
    dsimp only
    rw [getState_mw, hmw', hmw]
    simp only [runMiddleware_nil, hval', heq, if_true]
  unfold setStateFuel setStateGo
  simp only [hvalid, Bool.not_true, Bool.false_eq_true, if_false]
  cases hct0 : sm.currentlyUpdating with
  | none =>
      rw [if_neg (by simp), if_neg (by simp [hdelay])]
      rw [himm { sm with currentlyUpdating := some [] } rfl rfl (setStateFuel fuel)]
      exact ⟨getState_state _ p Value.vnull, rfl⟩
  | some cu =>
      have hcuEmpty : cu = [] := by simpa [hct0] using hcu
      subst hcuEmpty
      rw [if_neg (by simp [hcu]), if_neg (by simp [hdelay])]
      rw [himm sm rfl rfl (setStateFuel fuel)]
      exact ⟨getState_state _ p Value.vnull, rfl⟩

/-- With no internal subscribers registered at all, no trigger produces an
event. -/
theorem trigEventsAll_nil (l : List String) : trigEventsAll [] l = [] := by
  induction l with
  | nil => rfl
  | cons p rest ih => simp [trigEventsAll, trigEventsOf, regFind, ih]

/-- The internal notification trace of a store with no internal
subscribers is empty. -/
theorem intTraceOf_nil (ext : List (String × List ExtSub)) (p : String) :
    intTraceOf [] ext p = [] := by
  simp [intTraceOf, trigEventsOf, regFind, trigEventsAll_nil]

/-- A nested `setState` on the path currently under notification is dropped
by the circular-update guard with only the logged warning: the store is
untouched and neither middleware nor the write runs. -/
theorem setStateFuel_circularDrop (fuel : Nat) (smU : StateManager) (w c : Value)
    (hcuU : smU.currentlyUpdating = some ["a"]) :
    setStateFuel (fuel + 1) smU "a" w c = (smU, [.warnCircular "a"]) := by
  show setStateGo (setStateFuel fuel) smU "a" w c = _
  unfold setStateGo
  rw [if_neg (by decide)]
  simp only [hcuU]
  rw [if_pos (by decide)]

/-- `_notifyExternalSubscribers` on a store whose only registration is one
hierarchical subscriber at `"a"` whose callback writes `"a"` back: the
subscriber fires once and its nested write is dropped (per `hdrop`), so the
store comes back unchanged with the callback event and the warning. -/
theorem notifyExtSingleA (setSt : SetStateFn) (sm : StateManager) (cbId : Nat)
    (w v old : Value)
    (hext : sm.externalSubscribers = [("a", [⟨cbId, true, [.doSet "a" w]⟩])])
    (hdrop : setSt sm "a" w (.vobj false []) = (sm, [.warnCircular "a"])) :
    notifyExternalSubscribers setSt sm "a" v old =
      (sm, [.extCall cbId v old "a", .warnCircular "a"]) := by
  unfold notifyExternalSubscribers
  rw [hext]
  unfold notifyExternalSubscribers.go notifyExtSubs
  dsimp only
  rw [if_pos (show shouldNotifyExt "a" "a" true = true from by decide)]
  unfold runActs
  dsimp only
  rw [hdrop]
  rfl

set_option maxHeartbeats 2000000 in
/-- `_setStateImmediate` on a quiescent store whose only subscriber is one
external hierarchical subscriber at `"a"` that writes `"a"` back: the outer
write lands, the callback fires once, its nested write is dropped, and the
guard set is cleared on exit. -/
theorem setStateImmediate_circular (setSt : SetStateFn) (sm sm' : StateManager)
    (cbId : Nat) (v w c : Value)
    (hmw : sm.middleware = [])
    (hsub : sm.subscribers = [])
    (hcb : sm.cbTable = [])
    (hext : sm.externalSubscribers = [("a", [⟨cbId, true, [.doSet "a" w]⟩])])
    (hne : deepEquals (getState sm "a" .vnull).1 v = false)
    (hdrop : ∀ smU : StateManager, smU.currentlyUpdating = some ["a"] →
        setSt smU "a" w (.vobj false []) = (smU, [.warnCircular "a"]))
    (hst : sm'.state = sm.state) (hmw' : sm'.middleware = sm.middleware)
    (hsub' : sm'.subscribers = sm.subscribers) (hcb' : sm'.cbTable = sm.cbTable)
    (hext' : sm'.externalSubscribers = sm.externalSubscribers)
    (hct' : sm'.currentTracking = none)
    (hcu' : sm'.currentlyUpdating.getD [] = [])
    (hupd' : sm'.isUpdating = false) :
    setStateImmediate setSt sm' "a" v c =
      ({ sm' with state := setThrough sm.state (getPathParts "a") v,
                  isUpdating := false, currentlyUpdating := some [] },
       [.extCall cbId v (getState sm "a" .vnull).1 "a", .warnCircular "a"]) := by
  have hval' : (getState sm' "a" Value.vnull).1 = (getState sm "a" Value.vnull).1 :=
    getState_val_congr sm' sm "a" Value.vnull hst
  unfold setStateImmediate
  rw [getState_snd_none sm' "a" Value.vnull hct']
  dsimp only
  rw [hmw', hmw]
  simp only [runMiddleware_nil, hval', hne, Bool.false_eq_true, if_false,
    hupd', Bool.not_false, if_true]
  rw [notifySubscribers_empty setSt _ "a" (by simp [hcb', hcb])]
  dsimp only
  rw [hcu']
  rw [notifyExtSingleA setSt _ cbId w v (getState sm "a" Value.vnull).1
    (by simp [hext', hext])
    (hdrop _ (by simp only [setAdd, List.contains_nil, Bool.false_eq_true,
      if_false, List.nil_append]))]
  dsimp only
  simp only [setAdd, List.contains_nil, Bool.false_eq_true, if_false,
    List.nil_append, List.filter_cons, List.filter_nil]
  simp [hst, hsub', hsub, hext', hext, intTraceOf_nil]

/-- A batched `setState` (batching enabled, non-zero delay, queue not
overlong) only enqueues an update record and arms the flush timer: the store
is otherwise untouched and no events are emitted. -/
theorem setStateFuel_queue (fuel : Nat) (sm : StateManager) (p : String) (v c : Value)
    (hvalid : isValidPath p = true)
    (hcu : sm.currentlyUpdating.getD [] = [])
    (hbe : sm.batchingEnabled = true)
    (hdelay : sm.batchDelayMs > 0)
    (hlen : sm.updateQueue.length + 1 ≤ sm.maxBatchSize * 2) :
    setStateFuel (fuel + 1) sm p v c =
      ({ sm with currentlyUpdating := some [],
                 updateQueue := sm.updateQueue ++ [⟨p, v, c, sm.now⟩],
                 batchTimeout := true }, []) := by
  show setStateGo (setStateFuel fuel) sm p v c = _
  unfold setStateGo
  simp only [hvalid, Bool.not_true, Bool.false_eq_true, if_false]
  cases hct0 : sm.currentlyUpdating with
  | none =>
      rw [if_neg (by simp), if_pos (by simp [hbe, hdelay])]
      unfold queueUpdate
      dsimp only
      rw [if_neg (by simp; omega)]
      cases hbt : sm.batchTimeout with
      | false => simp [hbt]
      | true => simp [hbt]
  | some cu =>
      have hcuEmpty : cu = [] := by simpa [hct0] using hcu
      subst hcuEmpty
      rw [if_neg (by simp [hcu]), if_pos (by simp [hbe, hdelay])]
      unfold queueUpdate
      dsimp only
      rw [if_neg (by simp; omega)]
      cases hbt : sm.batchTimeout with
      | false => simp [hbt, hct0]
      | true => simp [hbt, hct0]

/-! ### Claims -/

set_option maxHeartbeats 2000000 in
/-- C5: with batching enabled and a non-zero delay, three `setState("x", ·)`
calls before the flush timer fires each merely enqueue (no events, no state
change); the timer's flush then coalesces them last-write-wins and applies
exactly one state change through the unbatched path, producing exactly one
notification pass for `"x"` carrying the last value `3`. -/
theorem claim_C5 (fuel : Nat) (sm : StateManager) (c : Value)
    (hmw : sm.middleware = [])
    (hes : EmptyScripts sm)
    (hct : sm.currentTracking = none)
    (hcu : sm.currentlyUpdating.getD [] = [])
    (hupd : sm.isUpdating = false)
    (hbe : sm.batchingEnabled = true)
    (hdelay : sm.batchDelayMs > 0)
    (hq : sm.updateQueue = [])
    (hbip : sm.batchUpdateInProgress = false)
    (hmax : 3 ≤ sm.maxBatchSize)
    (hne : deepEquals (getState sm "x" .vnull).1 (.vnum 3) = false) :
    (setStateFuel (fuel + 1) sm "x" (.vnum 1) c).2 = [] ∧
    (setStateFuel (fuel + 1) (setStateFuel (fuel + 1) sm "x" (.vnum 1) c).1
        "x" (.vnum 2) c).2 = [] ∧
    (setStateFuel (fuel + 1)
        (setStateFuel (fuel + 1) (setStateFuel (fuel + 1) sm "x" (.vnum 1) c).1
          "x" (.vnum 2) c).1 "x" (.vnum 3) c).2 = [] ∧
    (setStateFuel (fuel + 1)
        (setStateFuel (fuel + 1) (setStateFuel (fuel + 1) sm "x" (.vnum 1) c).1
          "x" (.vnum 2) c).1 "x" (.vnum 3) c).1.state = sm.state ∧
    processBatchedFuel fuel
        (setStateFuel (fuel + 1)
          (setStateFuel (fuel + 1) (setStateFuel (fuel + 1) sm "x" (.vnum 1) c).1
            "x" (.vnum 2) c).1 "x" (.vnum 3) c).1 =
      ({ sm with state := setThrough sm.state (getPathParts "x") (.vnum 3),
                 isUpdating := false, currentlyUpdating := some [],
                 updateQueue := [], batchTimeout := false,
                 batchUpdateInProgress := false },
       intTraceOf sm.subscribers sm.externalSubscribers "x" ++
         extTraceOf sm.externalSubscribers "x" (.vnum 3) (getState sm "x" .vnull).1) := by
  have hq1 : setStateFuel (fuel + 1) sm "x" (.vnum 1) c =
      ({ sm with currentlyUpdating := some [],
                 updateQueue := [⟨"x", .vnum 1, c, sm.now⟩],
                 batchTimeout := true }, []) :=
    (setStateFuel_queue fuel sm "x" (.vnum 1) c (by decide) hcu hbe hdelay
      (by simp [hq]; omega)).trans (by rw [hq]; rfl)
  have hq2 : setStateFuel (fuel + 1)
      ({ sm with currentlyUpdating := some [],
                 updateQueue := [⟨"x", .vnum 1, c, sm.now⟩],
                 batchTimeout := true } : StateManager) "x" (.vnum 2) c =
      ({ sm with currentlyUpdating := some [],
                 updateQueue := [⟨"x", .vnum 1, c, sm.now⟩, ⟨"x", .vnum 2, c, sm.now⟩],
                 batchTimeout := true }, []) :=
    (setStateFuel_queue fuel
      ({ sm with currentlyUpdating := some [],
                 updateQueue := [⟨"x", .vnum 1, c, sm.now⟩],
                 batchTimeout := true } : StateManager) "x" (.vnum 2) c (by decide)
      rfl hbe hdelay (by simp; omega)).trans rfl
  have hq3 : setStateFuel (fuel + 1)
      ({ sm with currentlyUpdating := some [],
                 updateQueue := [⟨"x", .vnum 1, c, sm.now⟩, ⟨"x", .vnum 2, c, sm.now⟩],
                 batchTimeout := true } : StateManager) "x" (.vnum 3) c =
      ({ sm with currentlyUpdating := some [],
                 updateQueue := [⟨"x", .vnum 1, c, sm.now⟩, ⟨"x", .vnum 2, c, sm.now⟩,
                                 ⟨"x", .vnum 3, c, sm.now⟩],
                 batchTimeout := true }, []) :=
    (setStateFuel_queue fuel
      ({ sm with currentlyUpdating := some [],
                 updateQueue := [⟨"x", .vnum 1, c, sm.now⟩, ⟨"x", .vnum 2, c, sm.now⟩],
                 batchTimeout := true } : StateManager) "x" (.vnum 3) c (by decide)
      rfl hbe hdelay (by simp; omega)).trans rfl
  have hgl : groupLatest [⟨"x", .vnum 1, c, sm.now⟩, ⟨"x", .vnum 2, c, sm.now⟩,
      ⟨"x", .vnum 3, c, sm.now⟩] = [⟨"x", .vnum 3, c, sm.now⟩] := by
    simp [groupLatest]
  have hlen3 : ([⟨"x", .vnum 1, c, sm.now⟩, ⟨"x", .vnum 2, c, sm.now⟩,
      ⟨"x", .vnum 3, c, sm.now⟩] : List UpdateRecord).length = 3 := rfl
  have hmin : min sm.maxBatchSize 3 = 3 := Nat.min_eq_right hmax
  have hfl : processBatchedFuel fuel
      ({ sm with currentlyUpdating := some [],
                 updateQueue := [⟨"x", .vnum 1, c, sm.now⟩, ⟨"x", .vnum 2, c, sm.now⟩,
                                 ⟨"x", .vnum 3, c, sm.now⟩],
                 batchTimeout := true } : StateManager) =
      ({ sm with state := setThrough sm.state (getPathParts "x") (.vnum 3),
                 isUpdating := false, currentlyUpdating := some [],
                 updateQueue := [], batchTimeout := false,
                 batchUpdateInProgress := false },
       intTraceOf sm.subscribers sm.externalSubscribers "x" ++
         extTraceOf sm.externalSubscribers "x" (.vnum 3) (getState sm "x" .vnull).1) := by
    unfold processBatchedFuel processBatchedUpdates
    rw [if_neg (by simp [hbip])]
    dsimp only
    rw [if_pos rfl]
    dsimp only
    rw [hlen3, hmin]
    rw [show List.take 3 [(⟨"x", .vnum 1, c, sm.now⟩ : UpdateRecord),
      ⟨"x", .vnum 2, c, sm.now⟩, ⟨"x", .vnum 3, c, sm.now⟩] =
      [⟨"x", .vnum 1, c, sm.now⟩, ⟨"x", .vnum 2, c, sm.now⟩,
       ⟨"x", .vnum 3, c, sm.now⟩] from rfl]
    rw [show List.drop 3 [(⟨"x", .vnum 1, c, sm.now⟩ : UpdateRecord),
      ⟨"x", .vnum 2, c, sm.now⟩, ⟨"x", .vnum 3, c, sm.now⟩] = [] from rfl]
    rw [hgl]
    simp only [processGroups]
    rw [setStateImmediate_run (setStateFuel fuel) sm
      ({ sm with currentlyUpdating := some [], updateQueue := [],
                 batchTimeout := false, batchUpdateInProgress := true } : StateManager)
      "x" (.vnum 3) c hmw hes hne rfl rfl rfl rfl rfl hct rfl hupd]
    dsimp only
    rw [if_neg (by simp)]
    simp
  refine ⟨by rw [hq1], ?_, ?_, ?_, ?_⟩
  · rw [hq1]
    dsimp only
    rw [hq2]
  · rw [hq1]
    dsimp only
    rw [hq2]
    dsimp only
    rw [hq3]
  · rw [hq1]
    dsimp only
    rw [hq2]
    dsimp only
    rw [hq3]
  · rw [hq1]
    dsimp only
    rw [hq2]
    dsimp only
    rw [hq3]
    dsimp only
    exact hfl

/-- C5 witness: the three-set batch scenario on a concrete spy-subscribed
store — one applied change, one notification pass carrying `3`. -/
theorem claim_C5_witness :
    (processBatchedFuel 0
        (setStateFuel 1
          (setStateFuel 1 (setStateFuel 1
              ({ mkStateManager [("x", .vnum 0)] [] with
                  batchDelayMs := 5,
                  externalSubscribers := [("x", [⟨1, true, []⟩])] } : StateManager)
              "x" (.vnum 1) (.vobj false [])).1
            "x" (.vnum 2) (.vobj false [])).1 "x" (.vnum 3) (.vobj false [])).1).1.state =
      [("x", .vnum 3)] ∧
    (processBatchedFuel 0
        (setStateFuel 1
          (setStateFuel 1 (setStateFuel 1
              ({ mkStateManager [("x", .vnum 0)] [] with
                  batchDelayMs := 5,
                  externalSubscribers := [("x", [⟨1, true, []⟩])] } : StateManager)
              "x" (.vnum 1) (.vobj false [])).1
            "x" (.vnum 2) (.vobj false [])).1 "x" (.vnum 3) (.vobj false [])).1).2 =
      [.extCall 1 (.vnum 3) (.vnum 0) "x"] := by
  have h := claim_C5 0
    ({ mkStateManager [("x", .vnum 0)] [] with
        batchDelayMs := 5,
        externalSubscribers := [("x", [⟨1, true, []⟩])] } : StateManager)
    (.vobj false []) rfl (by unfold EmptyScripts; decide) rfl rfl rfl rfl
    (by decide) rfl rfl (by decide) (by decide)
  rw [h.2.2.2.2]
  exact ⟨by decide, by decide⟩

/-- C1, counterexample: the path `"."` is accepted by `isValidPath`, yet on
a fresh default store (no middleware, `batchDelayMs = 0`) `setState(".",
"x")` followed immediately by `getState(".")` does not return `"x"`: the
part list of `"."` is empty, so the write lands on the literal key
`"undefined"` (JS `current[parts[-1]]`) and the read returns the state
root, refuting the claim as stated for every valid dot-separated path. -/
theorem claim_C1_counterexample :
    isValidPath "." = true ∧
    (getState (setStateFuel 1 (mkStateManager [] []) "." (.vstr "x") (.vobj false [])).1
        "." .vnull).1 ≠ .vstr "x" ∧
    (setStateFuel 1 (mkStateManager [] []) "." (.vstr "x") (.vobj false [])).1.state =
      [("undefined", .vstr "x")] := by decide

/-- C1, amended: for every valid dot-separated path with at least one
nonempty segment, on a quiescent store with no middleware, batching
inactive (`batchDelayMs = 0`) and subscribers that do not write back,
`setState(p, v)` followed immediately by `getState(p)` returns `v`
(missing intermediates created by the write-through); and when the prior
value at `p` is deep-equal to `v` the write is skipped entirely: the state
tree is unchanged and the event trace is empty — no subscriber is
notified. -/
theorem claim_C1 (fuel : Nat) (sm : StateManager) (p : String) (v c d : Value)
    (hvalid : isValidPath p = true)
    (hparts : getPathParts p ≠ [])
    (hmw : sm.middleware = [])
    (hdelay : sm.batchDelayMs = 0)
    (hcu : sm.currentlyUpdating.getD [] = [])
    (hro : ReadOnlyScripts sm) :
    (deepEquals (getState sm p .vnull).1 v = false →
        (getState (setStateFuel (fuel + 1) sm p v c).1 p d).1 = v) ∧
    (deepEquals (getState sm p .vnull).1 v = true →
        (setStateFuel (fuel + 1) sm p v c).1.state = sm.state ∧
        (setStateFuel (fuel + 1) sm p v c).2 = []) := by
  constructor
  · intro hne
    rw [getState_val, if_pos hvalid,
      setStateFuel_state fuel sm p v c hvalid hcu hdelay hmw hro hne,
      walkParts_setThrough (getPathParts p) sm.state v hparts]
    rfl
  · intro heq
    exact setStateFuel_skipLite fuel sm p v c hvalid hcu hdelay hmw heq

/-- C1 witness: concrete instance of the amended claim, both branches. -/
theorem claim_C1_witness :
    (getState (setStateFuel 1 (mkStateManager [] []) "user.name" (.vnum 42)
        (.vobj false [])).1 "user.name" .vnull).1 = .vnum 42 ∧
    ((setStateFuel 1 (mkStateManager [("a", .vnum 7)] []) "a" (.vnum 7)
        (.vobj false [])).1.state = [("a", .vnum 7)] ∧
     (setStateFuel 1 (mkStateManager [("a", .vnum 7)] []) "a" (.vnum 7)
        (.vobj false [])).2 = []) :=
  ⟨(claim_C1 0 (mkStateManager [] []) "user.name" (.vnum 42) (.vobj false []) .vnull
      (by decide) (by decide) rfl rfl rfl
      ⟨fun e he => absurd he (by simp [mkStateManager]),
       fun e he => absurd he (by simp [mkStateManager])⟩).1 (by decide),
   (claim_C1 0 (mkStateManager [("a", .vnum 7)] []) "a" (.vnum 7) (.vobj false []) .vnull
      (by decide) (by decide) rfl rfl rfl
      ⟨fun e he => absurd he (by simp [mkStateManager]),
       fun e he => absurd he (by simp [mkStateManager])⟩).2 (by decide)⟩

/-- C3, counterexample: with one hierarchical subscriber registered at the
strict ancestor `"a"` before a second subscriber registered exactly at
`"a.b"`, a non-batched `setState("a.b", 1)` fires the ancestor's callback
(id 1) before the exact subscriber's (id 2): external subscribers are
notified in registration order, not exact-path-first, refuting the claimed
fixed (exact, ancestors, descendants) order. -/
theorem claim_C3_counterexample :
    (setStateFuel 1 { mkStateManager [] [] with
        externalSubscribers := [("a", [⟨1, true, []⟩]), ("a.b", [⟨2, true, []⟩])] }
      "a.b" (.vnum 1) (.vobj false [])).2 =
      [.extCall 1 (.vnum 1) .vnull "a.b", .extCall 2 (.vnum 1) .vnull "a.b"] := by decide

/-- C3, amended: for every non-batched `set(p, v)` that changes the value
at `p` on a quiescent store with no middleware and spy subscribers, the
synchronous trace produced before `set` returns is exactly: the internal
(reactive) subscriber triggers in the fixed order (1) exactly at `p`,
(2) every strict-prefix ancestor, deepest first, (3) every registered path
strictly under `p`; followed by the external `subscribe` callbacks in
registration order, a hierarchical subscription firing when `p` equals or
extends its path, an exact one only on path equality (so external
subscribers at strict-descendant paths are not notified). -/
theorem claim_C3 (fuel : Nat) (sm : StateManager) (p : String) (v c : Value)
    (hvalid : isValidPath p = true)
    (hct : sm.currentTracking = none)
    (hcu : sm.currentlyUpdating.getD [] = [])
    (hdelay : sm.batchDelayMs = 0)
    (hmw : sm.middleware = [])
    (hupd : sm.isUpdating = false)
    (hes : EmptyScripts sm)
    (hne : deepEquals (getState sm p .vnull).1 v = false) :
    (setStateFuel (fuel + 1) sm p v c).2 =
      intTraceOf sm.subscribers sm.externalSubscribers p ++
        extTraceOf sm.externalSubscribers p v (getState sm p .vnull).1 := by
  rw [setStateFuel_run fuel sm p v c hvalid hct hcu hdelay hmw hupd hes hne]

/-- C3 witness: the amended order on a concrete registry — internal
subscribers at the exact path, an ancestor and a descendant, then external
subscribers in registration order. -/
theorem claim_C3_witness :
    (setStateFuel 1 { mkStateManager [] [] with
        subscribers := [("a.b.c", [30]), ("a", [10]), ("a.b", [20])],
        cbTable := [(10, []), (20, []), (30, [])],
        externalSubscribers := [("a", [⟨1, true, []⟩]), ("a.b", [⟨2, true, []⟩])] }
      "a.b" (.vnum 1) (.vobj false [])).2 =
      intTraceOf [("a.b.c", [30]), ("a", [10]), ("a.b", [20])]
        [("a", [⟨1, true, []⟩]), ("a.b", [⟨2, true, []⟩])] "a.b" ++
      extTraceOf [("a", [⟨1, true, []⟩]), ("a.b", [⟨2, true, []⟩])] "a.b" (.vnum 1)
        .vnull := by
  rw [claim_C3 0 ({ mkStateManager [] [] with
        subscribers := [("a.b.c", [30]), ("a", [10]), ("a.b", [20])],
        cbTable := [(10, []), (20, []), (30, [])],
        externalSubscribers := [("a", [⟨1, true, []⟩]), ("a.b", [⟨2, true, []⟩])] })
    "a.b" (.vnum 1) (.vobj false []) (by decide) rfl rfl rfl rfl rfl
    (by unfold EmptyScripts; decide) (by decide)]
  decide

/-- C10: a `setState(p2, v2)` issued while the notification pass of a
different path `p1` is running (`isUpdating` set, reentrancy set holding
`p1`) writes silently: middleware and the deep-equality skip still apply,
the value lands in the state tree (readable afterwards), but the trace of
the nested call contains no internal or external subscriber notification. -/
theorem claim_C10 (fuel : Nat) (sm : StateManager) (p1 p2 : String) (v2 c : Value)
    (hupd : sm.isUpdating = true)
    (hcu : sm.currentlyUpdating = some [p1])
    (hne12 : p2 ≠ p1)
    (hvalid : isValidPath p2 = true)
    (hdelay : sm.batchDelayMs = 0) :
    ((setStateFuel (fuel + 1) sm p2 v2 c).2.all (fun e => !isNotifyEvent e)) = true ∧
    (setStateFuel (fuel + 1) sm p2 v2 c).1.state =
      (if deepEquals (getState sm p2 .vnull).1
            (runMiddleware sm.middleware p2 (getState sm p2 .vnull).1 v2 c
              (.vobj false sm.state)).1 = true
       then sm.state
       else setThrough sm.state (getPathParts p2)
              (runMiddleware sm.middleware p2 (getState sm p2 .vnull).1 v2 c
                (.vobj false sm.state)).1) ∧
    (deepEquals (getState sm p2 .vnull).1
        (runMiddleware sm.middleware p2 (getState sm p2 .vnull).1 v2 c
          (.vobj false sm.state)).1 = false →
      getPathParts p2 ≠ [] →
      (getState (setStateFuel (fuel + 1) sm p2 v2 c).1 p2 .vnull).1 =
        (runMiddleware sm.middleware p2 (getState sm p2 .vnull).1 v2 c
          (.vobj false sm.state)).1) := by
  have hstep : setStateFuel (fuel + 1) sm p2 v2 c =
      setStateImmediate (setStateFuel fuel) sm p2 v2 c := by
    show setStateGo (setStateFuel fuel) sm p2 v2 c = _
    unfold setStateGo
    simp only [hvalid, Bool.not_true, Bool.false_eq_true, if_false, hcu]
    rw [if_neg (by simp [hne12]), if_neg (by simp [hdelay])]
  have hOldSt := getState_state sm p2 Value.vnull
  have hOldMw := getState_mw sm p2 Value.vnull
  have hOldUpd := getState_isUpdating sm p2 Value.vnull
  have hMwEv := runMiddleware_events sm.middleware p2 (getState sm p2 Value.vnull).1
    v2 c (.vobj false sm.state)
  obtain hde | hde := Bool.eq_false_or_eq_true (deepEquals (getState sm p2 .vnull).1
      (runMiddleware sm.middleware p2 (getState sm p2 .vnull).1 v2 c
        (.vobj false sm.state)).1)
  · have heq : setStateImmediate (setStateFuel fuel) sm p2 v2 c =
          ((getState sm p2 Value.vnull).2,
           (runMiddleware sm.middleware p2 (getState sm p2 Value.vnull).1 v2 c
             (.vobj false sm.state)).2) := by
      unfold setStateImmediate
      dsimp only
      rw [hOldMw, hOldSt, hde]
      simp
    rw [hstep, heq]
    refine ⟨hMwEv, by simp [hOldSt, hde], fun hcontra => ?_⟩
    rw [hcontra] at hde
    cases hde
  · have heq : setStateImmediate (setStateFuel fuel) sm p2 v2 c =
          ({ (getState sm p2 Value.vnull).2 with
              state := setThrough sm.state (getPathParts p2)
                (runMiddleware sm.middleware p2 (getState sm p2 Value.vnull).1 v2 c
                  (.vobj false sm.state)).1 },
           (runMiddleware sm.middleware p2 (getState sm p2 Value.vnull).1 v2 c
             (.vobj false sm.state)).2) := by
      unfold setStateImmediate
      dsimp only
      rw [hOldMw, hOldSt, hde]
      simp only [Bool.false_eq_true, if_false]
      rw [if_neg (by simp [hOldUpd, hupd])]
    rw [hstep, heq]
    refine ⟨hMwEv, by simp [hde], fun _ hparts => ?_⟩
    rw [getState_val, if_pos hvalid]
    dsimp only
    rw [walkParts_setThrough (getPathParts p2) sm.state _ hparts]
    rfl

set_option maxHeartbeats 2000000 in
/-- C4: a hierarchical subscriber on `"a"` whose callback writes `"a"` again
does not recurse: on a quiescent store holding exactly that external
subscriber (no middleware, no internal subscribers, batching inactive), the
outer `setState("a", v)` with `v` not deep-equal to the old value invokes
the callback once, the nested `setState("a", w)` is dropped by the
circular-update guard before any middleware runs or any state is written —
the logged circular warning is its only observable effect — and the state
at `"a"` after the call is the outer value `v`, with the guard set cleared
on exit. -/
theorem claim_C4 (fuel : Nat) (sm : StateManager) (v w c : Value) (cbId : Nat)
    (hmw : sm.middleware = [])
    (hsub : sm.subscribers = [])
    (hcb : sm.cbTable = [])
    (hext : sm.externalSubscribers = [("a", [⟨cbId, true, [.doSet "a" w]⟩])])
    (hct : sm.currentTracking = none)
    (hcu : sm.currentlyUpdating.getD [] = [])
    (hupd : sm.isUpdating = false)
    (hdelay : sm.batchDelayMs = 0)
    (hne : deepEquals (getState sm "a" .vnull).1 v = false) :
    setStateFuel (fuel + 2) sm "a" v c =
      ({ sm with state := setThrough sm.state (getPathParts "a") v,
                 isUpdating := false, currentlyUpdating := some [] },
       [.extCall cbId v (getState sm "a" .vnull).1 "a", .warnCircular "a"]) ∧
    (getState (setStateFuel (fuel + 2) sm "a" v c).1 "a" .vnull).1 = v := by
  have hmain : setStateFuel (fuel + 2) sm "a" v c =
      ({ sm with state := setThrough sm.state (getPathParts "a") v,
                 isUpdating := false, currentlyUpdating := some [] },
       [.extCall cbId v (getState sm "a" .vnull).1 "a", .warnCircular "a"]) := by
    show setStateGo (setStateFuel (fuel + 1)) sm "a" v c = _
    unfold setStateGo
    rw [if_neg (by decide)]
    cases hct0 : sm.currentlyUpdating with
    | none =>
        rw [if_neg (by simp), if_neg (by simp [hdelay])]
        exact (setStateImmediate_circular (setStateFuel (fuel + 1)) sm
          { sm with currentlyUpdating := some [] } cbId v w c hmw hsub hcb hext hne
          (fun smU h => setStateFuel_circularDrop fuel smU w (.vobj false []) h)
          rfl rfl rfl rfl rfl hct rfl hupd).trans rfl
    | some cu =>
        have hcuEmpty : cu = [] := by simpa [hct0] using hcu
        subst hcuEmpty
        rw [if_neg (by simp [hcu]), if_neg (by simp [hdelay])]
        exact (setStateImmediate_circular (setStateFuel (fuel + 1)) sm sm cbId v w c
          hmw hsub hcb hext hne
          (fun smU h => setStateFuel_circularDrop fuel smU w (.vobj false []) h)
          rfl rfl rfl rfl rfl hct (by simp [hct0]) hupd).trans rfl
  refine ⟨hmain, ?_⟩
  rw [hmain]
  rw [getState_val, if_pos (by decide)]
  dsimp only
  rw [walkParts_setThrough (getPathParts "a") sm.state v (by decide)]
  rfl

/-- C4 witness: the guard scenario at concrete values. -/
theorem claim_C4_witness :
    setStateFuel 2 { mkStateManager [] [] with
        externalSubscribers := [("a", [⟨1, true, [.doSet "a" (.vnum 9)]⟩])] }
      "a" (.vnum 5) (.vobj false []) =
      ({ mkStateManager [] [] with
          externalSubscribers := [("a", [⟨1, true, [.doSet "a" (.vnum 9)]⟩])],
          state := [("a", .vnum 5)], isUpdating := false,
          currentlyUpdating := some [] },
       [.extCall 1 (.vnum 5) .vnull "a", .warnCircular "a"]) ∧
    (getState (setStateFuel 2 { mkStateManager [] [] with
        externalSubscribers := [("a", [⟨1, true, [.doSet "a" (.vnum 9)]⟩])] }
      "a" (.vnum 5) (.vobj false [])).1 "a" .vnull).1 = .vnum 5 := by
  have h := claim_C4 0 { mkStateManager [] [] with
      externalSubscribers := [("a", [⟨1, true, [.doSet "a" (.vnum 9)]⟩])] }
    (.vnum 5) (.vnum 9) (.vobj false []) 1 rfl rfl rfl rfl rfl rfl rfl rfl
    (by decide)
  exact ⟨h.1.trans rfl, h.2⟩

/-- C10 witness: concrete silent nested write. -/
theorem claim_C10_witness :
    (((setStateFuel 1 { mkStateManager [("a", .vnum 1)] [] with
        isUpdating := true, currentlyUpdating := some ["a"] }
        "b" (.vnum 7) (.vobj false [])).2.all (fun e => !isNotifyEvent e)) = true) ∧
    (getState (setStateFuel 1 { mkStateManager [("a", .vnum 1)] [] with
        isUpdating := true, currentlyUpdating := some ["a"] }
        "b" (.vnum 7) (.vobj false [])).1 "b" .vnull).1 = .vnum 7 :=
  ⟨(claim_C10 0 _ "a" "b" (.vnum 7) (.vobj false []) rfl rfl (by decide) (by decide)
      rfl).1,
   (claim_C10 0 _ "a" "b" (.vnum 7) (.vobj false []) rfl rfl (by decide) (by decide)
      rfl).2.2 (by decide) (by decide)⟩

end Juris
